import Mathlib

/-!
Verification of the scope-guard library: a shallow embedding of
`Scope<T, F>` from `src/lib.rs` and of `CatchUnwindFut` / `async_scope`
from `src/async_scope.rs`, with theorems settling the specification's
claims about them.

Modelling conventions:
* A cleanup closure `F: FnOnce(T)` is modelled as a function `T → List E`
  from the consumed value to the list of side-effect events the closure
  emits when invoked; invoking the closure once on `v` contributes
  exactly the trace `dtor v`.
* A stacked step `NF: FnOnce(&mut T)` is modelled as `T → T × List E`:
  it may mutate the value (first component) and emit events (second
  component) but cannot consume the value, mirroring the `&mut T`
  signature.
* Rust drop glue is modelled explicitly: dropping a value of type `T`
  whose `Drop` implementation is `tdrop : T → List E` emits `tdrop v`;
  `ManuallyDrop<X>` suppresses this (its field glue emits nothing);
  `mem::forget` consumes a value running no drop glue at all.
* Futures are inductive step machines: each poll emits a list of events
  and either yields `Pending`, completes with a value, or raises an
  abrupt unwind carrying an opaque payload of type `P`.
-/

/-- Shallow embedding of `Scope<T, F>` from `src/lib.rs`: owns a value and a
cleanup closure. In the source both fields sit inside `mem::ManuallyDrop`,
so neither is destroyed automatically; the embedding records the payloads
and models the suppressed automatic destruction in the drop-glue
definitions below. -/
structure Scope (T E : Type) where
  val : T
  dtor : T → List E

/-- Scope::new: stores the value and the cleanup; no side effects and the
cleanup is not invoked. -/
def Scope.new {T E : Type} (val : T) (dtor : T → List E) : Scope T E :=
  { val := val, dtor := dtor }

/-- mem::forget consumes a value without running its drop glue: whatever the
drop glue of the forgotten value would have emitted, forgetting emits
nothing. -/
def memForget {A E : Type} (_glue : A → List E) (_a : A) : List E := []

/-- Drop glue of a `ManuallyDrop<X>` field: the wrapped value's own
destructor `_dropImpl` is suppressed, so dropping the field emits
nothing. -/
def manuallyDropGlue {A E : Type} (_dropImpl : A → List E) (_a : A) : List E := []

/-- Natural destruction of a guard (`Scope::drop` followed by the field
glue the compiler inserts), given `tdrop` as the `Drop` implementation of
`T`. `Drop::drop` reads the value out, reads the cleanup out and invokes
the cleanup on the value; afterwards the drop glue of the two
`ManuallyDrop` fields runs and emits nothing. -/
def Scope.dropRun {T E : Type} (tdrop : T → List E) (g : Scope T E) : List E :=
  g.dtor g.val ++ manuallyDropGlue tdrop g.val
    ++ manuallyDropGlue (fun (_f : T → List E) => ([] : List E)) g.dtor

/-- Scope::forget: `self.get_dtor(); mem::forget(self)`. The cleanup is
read out and dropped uninvoked (dropping a closure emits nothing in this
model), then the whole guard is passed to `mem::forget`, which suppresses
the guard's drop glue entirely — in particular `tdrop`, the destructor of
`T`, is never consulted. -/
def Scope.forgetRun {T E : Type} (tdrop : T → List E) (g : Scope T E) : List E :=
  memForget (Scope.dropRun tdrop) g

/-- Scope::into_inner: `let value = self.get_value(); self.forget(); value`.
Returns the bitwise-read-out value together with the events emitted while
forgetting the guard. -/
def Scope.into_inner {T E : Type} (tdrop : T → List E) (g : Scope T E) :
    T × List E :=
  (g.val, Scope.forgetRun tdrop g)

/-- Transparent accesses to a live guard through `Deref` / `DerefMut`:
a read, a store of a new value through the mutable reference, or a
read-modify-write through it. -/
inductive Access (T : Type) where
  | read : Access T
  | write : T → Access T
  | modify : (T → T) → Access T

/-- Effect of one transparent access on the guard: `deref` / `deref_mut`
return a reference to the `val` field only, so a read changes nothing and
a write through the reference stores into `val` and touches nothing
else. No closure is reachable through the returned reference, so no
events are emitted. -/
def Scope.applyAccess {T E : Type} (g : Scope T E) : Access T → Scope T E
  | Access.read => g
  | Access.write v => { g with val := v }
  | Access.modify f => { g with val := f g.val }

/-- Effect of a sequence of transparent accesses on the guard. -/
def Scope.applyAll {T E : Type} (g : Scope T E) (ops : List (Access T)) :
    Scope T E :=
  ops.foldl Scope.applyAccess g

/-- Value obtained by threading an initial value through a sequence of
accesses: the guard's value as last written. -/
def finalVal {T : Type} (v0 : T) (ops : List (Access T)) : T :=
  ops.foldl (fun v op =>
    match op with
    | Access.read => v
    | Access.write w => w
    | Access.modify f => f v) v0

/-- Scope::stack: reads the current cleanup and value out, forgets the old
guard and builds a new guard over the same value whose cleanup first runs
the new step on a mutable reference to the value and then hands the
(possibly mutated) value to the previous cleanup by value. -/
def Scope.stack {T E : Type} (g : Scope T E) (step : T → T × List E) :
    Scope T E :=
  Scope.new g.val (fun value =>
    (step value).2 ++ g.dtor (step value).1)

/-- Repeated application of `Scope::stack`; the list holds the extra steps
in registration order (head registered first). -/
def Scope.stackAll {T E : Type} (g : Scope T E)
    (steps : List (T → T × List E)) : Scope T E :=
  steps.foldl Scope.stack g

/-- Sequential execution of a list of mutable-reference steps in list
order, threading the value and concatenating the emitted events. This is
the specification-side description used to state the ordering guarantee
of cleanup composition. -/
def runSeq {T E : Type} : List (T → T × List E) → T → T × List E
  | [], v => (v, [])
  | s :: rest, v =>
    ((runSeq rest (s v).1).1, (s v).2 ++ (runSeq rest (s v).1).2)

/-- Variant of the guard whose cleanup closure may itself raise an abrupt
unwind: the closure returns its emitted events together with an optional
unwind payload. Used to analyse destruction under unwind. -/
structure PScope (T E P : Type) where
  val : T
  dtor : T → List E × Option P

/-- Instrumented events of a guard's destruction path: extraction of the
value out of its `ManuallyDrop` cell (`ptr::read` in `get_value`),
extraction of the cleanup (`get_dtor`), and the user-level effects of the
cleanup itself. -/
inductive DropEv (T E : Type) where
  | extractVal : T → DropEv T E
  | extractDtor : DropEv T E
  | effect : E → DropEv T E

/-- Recogniser for value-extraction events. -/
def DropEv.isVal {T E : Type} : DropEv T E → Bool
  | DropEv.extractVal _ => true
  | _ => false

/-- Recogniser for cleanup-extraction events. -/
def DropEv.isDtor {T E : Type} : DropEv T E → Bool
  | DropEv.extractDtor => true
  | _ => false

/-- Instrumented destruction of a guard whose cleanup may unwind.
`Drop::drop` runs once: it extracts the value, extracts the cleanup and
invokes the cleanup, whose unwind payload (if any) propagates. During the
unwind the compiler still runs the drop glue of the two `ManuallyDrop`
fields, which emits nothing and extracts nothing, so no second extraction
or invocation ever happens and `Drop::drop` is not re-entered. -/
def PScope.dropGlue {T E P : Type} (g : PScope T E P) :
    List (DropEv T E) × Option P :=
  (DropEv.extractVal g.val :: DropEv.extractDtor ::
      ((g.dtor g.val).1.map DropEv.effect),
   (g.dtor g.val).2)

/-- Shallow embedding of a future (`src/async_scope.rs`): a step machine
where each poll emits events and either completes with an `R`, suspends
and continues as another future, or raises an abrupt unwind with an
opaque payload of type `P`. -/
inductive Fut (E P R : Type) where
  | ready : List E → R → Fut E P R
  | pending : List E → Fut E P R → Fut E P R
  | panics : List E → P → Fut E P R

/-- Result of a single poll of a future: suspend with a continuation,
complete with a value, or raise an abrupt unwind. -/
inductive PollRes (E P R : Type) where
  | pending : Fut E P R → PollRes E P R
  | ready : R → PollRes E P R
  | panicked : P → PollRes E P R

/-- One poll of a future: the events emitted during that poll and its
status. -/
def Fut.poll {E P R : Type} : Fut E P R → List E × PollRes E P R
  | Fut.ready es r => (es, PollRes.ready r)
  | Fut.pending es k => (es, PollRes.pending k)
  | Fut.panics es p => (es, PollRes.panicked p)

/-- Embedding of `CatchUnwindFut`: its `poll` delegates to the inner
future inside `panic::catch_unwind`; `Ok(Pending)` passes through as
`Pending` (the wrapper continues around the advanced inner future),
`Ok(Ready(res))` becomes `Ready(Ok(res))`, and a caught unwind becomes
`Ready(Err(payload))`. The definition unfolds that per-poll behaviour
structurally over the whole future. -/
def CatchUnwindFut {E P R : Type} : Fut E P R → Fut E P (Except P R)
  | Fut.ready es r => Fut.ready es (Except.ok r)
  | Fut.pending es k => Fut.pending es (CatchUnwindFut k)
  | Fut.panics es p => Fut.ready es (Except.error p)

/-- Overall outcome of driving a future to completion: a value, or an
abrupt unwind propagating out with its payload. -/
inductive Outcome (P R : Type) where
  | ok : R → Outcome P R
  | panicked : P → Outcome P R

/-- Driving a future to completion (`.await`): concatenates the events of
every poll; a raised unwind at some poll ends the run and propagates its
payload. -/
def Fut.run {E P R : Type} : Fut E P R → List E × Outcome P R
  | Fut.ready es r => (es, Outcome.ok r)
  | Fut.pending es k => (es ++ (Fut.run k).1, (Fut.run k).2)
  | Fut.panics es p => (es, Outcome.panicked p)

/-- Packaging of a completed run's outcome by `CatchUnwindFut`: a normal
completion becomes `Ok`, a caught unwind becomes `Err` — in either case
the wrapper's own run completes normally. -/
def captureOutcome {P R : Type} : Outcome P R → Outcome P (Except P R)
  | Outcome.ok r => Outcome.ok (Except.ok r)
  | Outcome.panicked p => Outcome.ok (Except.error p)

/-- Embedding of `async_scope(dtor, args, fut)`: awaits
`CatchUnwindFut(fut)` (an unwind propagating out of that await would end
the whole call, first arm), then constructs the cleanup future from
`dtorfn` and `args` and awaits it (an unwind there propagates out of the
call), and finally either returns the primary's output or resumes the
captured unwind via `resume_unwind`. -/
def async_scope {A E P R : Type}
    (dtorfn : A → Fut E P Unit) (args : A) (fut : Fut E P R) :
    List E × Outcome P R :=
  let r1 := (CatchUnwindFut fut).run
  match r1.2 with
  | Outcome.panicked p => (r1.1, Outcome.panicked p)
  | Outcome.ok result =>
    let r2 := (dtorfn args).run
    match r2.2 with
    | Outcome.panicked q => (r1.1 ++ r2.1, Outcome.panicked q)
    | Outcome.ok _ =>
      match result with
      | Except.ok r => (r1.1 ++ r2.1, Outcome.ok r)
      | Except.error p => (r1.1 ++ r2.1, Outcome.panicked p)

/-! Helper lemmas shared by several claims. -/

/-- A single transparent access never changes the stored cleanup. -/
theorem applyAccess_dtor {T E : Type} (g : Scope T E) (op : Access T) :
    (Scope.applyAccess g op).dtor = g.dtor := by
  cases op <;> rfl

/-- A sequence of transparent accesses never changes the stored cleanup. -/
theorem applyAll_dtor {T E : Type} (ops : List (Access T)) (g : Scope T E) :
    (Scope.applyAll g ops).dtor = g.dtor := by
  induction ops generalizing g with
  | nil => rfl
  | cons op rest ih =>
    have h1 : Scope.applyAll g (op :: rest)
        = Scope.applyAll (Scope.applyAccess g op) rest := rfl
    rw [h1, ih, applyAccess_dtor]

/-- After a sequence of transparent accesses the guard holds the value as
last written. -/
theorem applyAll_val {T E : Type} (ops : List (Access T)) (g : Scope T E) :
    (Scope.applyAll g ops).val = finalVal g.val ops := by
  induction ops generalizing g with
  | nil => rfl
  | cons op rest ih =>
    have h1 : Scope.applyAll g (op :: rest)
        = Scope.applyAll (Scope.applyAccess g op) rest := rfl
    have h2 : finalVal g.val (op :: rest)
        = finalVal (Scope.applyAccess g op).val rest := by
      cases op <;> rfl
    rw [h1, ih, h2]

/-- Appending one step to a step sequence runs it last. -/
theorem runSeq_append_single {T E : Type} (steps : List (T → T × List E))
    (s : T → T × List E) (v : T) :
    runSeq (steps ++ [s]) v
      = ((s (runSeq steps v).1).1,
         (runSeq steps v).2 ++ (s (runSeq steps v).1).2) := by
  induction steps generalizing v with
  | nil => simp [runSeq]
  | cons a rest ih => simp [runSeq, ih, List.append_assoc]

/-- The cleanup of a guard stacked with a list of steps runs the steps in
reverse-of-registration order and hands the resulting value to the
original cleanup. -/
theorem stackAll_dtor {T E : Type} (steps : List (T → T × List E))
    (g : Scope T E) :
    (Scope.stackAll g steps).dtor
      = fun v => (runSeq steps.reverse v).2
          ++ g.dtor (runSeq steps.reverse v).1 := by
  induction steps generalizing g with
  | nil =>
    funext v
    simp [Scope.stackAll, runSeq]
  | cons s rest ih =>
    have h1 : Scope.stackAll g (s :: rest)
        = Scope.stackAll (Scope.stack g s) rest := rfl
    rw [h1, ih]
    funext v
    have h2 : (s :: rest).reverse = rest.reverse ++ [s] := by simp
    rw [h2, runSeq_append_single]
    simp [Scope.stack, Scope.new, List.append_assoc]

/-- Stacking never changes the stored value. -/
theorem stackAll_val {T E : Type} (steps : List (T → T × List E))
    (g : Scope T E) :
    (Scope.stackAll g steps).val = g.val := by
  induction steps generalizing g with
  | nil => rfl
  | cons s rest ih =>
    have h1 : Scope.stackAll g (s :: rest)
        = Scope.stackAll (Scope.stack g s) rest := rfl
    rw [h1, ih]; rfl

/-- C1: a guard built by `Scope::new`, accessed any number of times through
`Deref`/`DerefMut` and then naturally destroyed (no forget, into_inner or
stack), emits exactly the trace of one invocation of its cleanup closure,
and the argument that invocation receives is the value as last written
through the guard. -/
theorem scope_natural_drop_runs_cleanup_once {T E : Type}
    (v0 : T) (dtor tdrop : T → List E) (ops : List (Access T)) :
    Scope.dropRun tdrop (Scope.applyAll (Scope.new v0 dtor) ops)
      = dtor (finalVal v0 ops) := by
  unfold Scope.dropRun
  rw [applyAll_dtor, applyAll_val]
  simp [Scope.new, manuallyDropGlue]

/-- C2: a guard stacked with any list of extra steps still holds the
original value, and on natural destruction the steps run in
reverse-of-registration order (most recently added first), each mutating
the value and emitting its events before the next, with the original
cleanup running last and receiving ownership of the final value. -/
theorem scope_stack_composition {T E : Type} (g : Scope T E)
    (steps : List (T → T × List E)) (tdrop : T → List E) :
    (Scope.stackAll g steps).val = g.val
    ∧ Scope.dropRun tdrop (Scope.stackAll g steps)
        = (runSeq steps.reverse g.val).2
            ++ g.dtor (runSeq steps.reverse g.val).1 := by
  refine ⟨stackAll_val steps g, ?_⟩
  unfold Scope.dropRun
  rw [stackAll_dtor, stackAll_val]
  simp [manuallyDropGlue]

/-- C3 counterexample: on a concrete guard over the value `7`, whose value
type has the destructor `fun v => [v]`, `Scope::forget` emits the empty
trace — the value's own destructor never runs (the guard is passed to
`mem::forget`, whose suppression of drop glue, together with the
`ManuallyDrop` wrapping, leaks the value), contradicting the claim that
the value's destructor still runs when the guard is consumed by
`forget`. -/
theorem scope_forget_counterexample :
    Scope.forgetRun (fun (v : Nat) => [v])
        (Scope.new 7 (fun (v : Nat) => [100 + v])) = ([] : List Nat)
    ∧ (fun (v : Nat) => [v]) 7 ≠ ([] : List Nat) := by
  refine ⟨rfl, ?_⟩
  decide

/-- C3 (amended): for every guard consumed by `forget`, after any sequence
of transparent accesses, the cleanup closure is never invoked and the
value's own destructor does not run either: `forget` emits no events at
all, so the owned value is leaked rather than destroyed. -/
theorem scope_forget_no_cleanup_no_value_drop {T E : Type}
    (v0 : T) (dtor tdrop : T → List E) (ops : List (Access T)) :
    Scope.forgetRun tdrop (Scope.applyAll (Scope.new v0 dtor) ops)
      = ([] : List E) := rfl

/-- C4: `into_inner` on a guard, after any sequence of transparent
accesses, invokes the cleanup zero times and returns the value as last
written, unmodified; moreover on every guard `into_inner` is exactly
`forget` plus returning the owned value. -/
theorem scope_into_inner_returns_value {T E : Type}
    (v0 : T) (dtor tdrop : T → List E) (ops : List (Access T)) :
    Scope.into_inner tdrop (Scope.applyAll (Scope.new v0 dtor) ops)
      = (finalVal v0 ops, ([] : List E))
    ∧ ∀ g : Scope T E,
        Scope.into_inner tdrop g = (g.val, Scope.forgetRun tdrop g) := by
  constructor
  · unfold Scope.into_inner
    rw [applyAll_val]
    rfl
  · intro g
    rfl

/-- C10: transparent accesses through `Deref`/`DerefMut` reach exactly the
stored value: any sequence of reads and writes leaves the cleanup closure
unchanged and never invokes it, the resulting stored value is the value
as last written, and a single write through the guard produces a guard
differing only in the value field. -/
theorem scope_access_frame {T E : Type} (g : Scope T E)
    (ops : List (Access T)) :
    (Scope.applyAll g ops).dtor = g.dtor
    ∧ (Scope.applyAll g ops).val = finalVal g.val ops
    ∧ ∀ v : T, Scope.applyAccess g (Access.write v) = Scope.new v g.dtor := by
  refine ⟨applyAll_dtor ops g, applyAll_val ops g, ?_⟩
  intro v
  rfl

/-- Running the unwind-capturing wrapper: it emits the same events as the
inner future and always completes normally, with the inner outcome packed
through `captureOutcome`. -/
theorem catchUnwind_run {E P R : Type} (f : Fut E P R) :
    (CatchUnwindFut f).run = ((Fut.run f).1, captureOutcome (Fut.run f).2) := by
  induction f with
  | ready es r => rfl
  | pending es k ih => simp [CatchUnwindFut, Fut.run, ih]
  | panics es p => rfl

/-- C7: each poll of `CatchUnwindFut` delegates to the inner future: a
`Pending` status passes through unchanged (the wrapper continuing around
the advanced inner future), `Ready(res)` becomes `Ready(Ok(res))`, and an
abrupt unwind raised at that poll is intercepted and becomes
`Ready(Err(payload))` instead of propagating — in every case with the
same events as the inner poll. -/
theorem catch_unwind_fut_poll {E P R : Type} (f : Fut E P R) :
    (∀ es k, Fut.poll f = (es, PollRes.pending k) →
        Fut.poll (CatchUnwindFut f) = (es, PollRes.pending (CatchUnwindFut k)))
    ∧ (∀ es r, Fut.poll f = (es, PollRes.ready r) →
        Fut.poll (CatchUnwindFut f) = (es, PollRes.ready (Except.ok r)))
    ∧ (∀ es p, Fut.poll f = (es, PollRes.panicked p) →
        Fut.poll (CatchUnwindFut f) = (es, PollRes.ready (Except.error p))) := by
  refine ⟨?_, ?_, ?_⟩ <;> intro es x h <;> cases f <;>
    simp_all [Fut.poll, CatchUnwindFut]

/-- Witness for C7 at concrete futures: one poll of a suspending, a
completing and an unwinding future under the wrapper. -/
theorem catch_unwind_fut_poll_witness :
    Fut.poll (CatchUnwindFut (Fut.pending [1] (Fut.ready [2] 5) : Fut Nat Nat Nat))
      = ([1], PollRes.pending (CatchUnwindFut (Fut.ready [2] 5)))
    ∧ Fut.poll (CatchUnwindFut (Fut.ready [3] 4 : Fut Nat Nat Nat))
      = ([3], PollRes.ready (Except.ok 4))
    ∧ Fut.poll (CatchUnwindFut (Fut.panics [5] 9 : Fut Nat Nat Nat))
      = ([5], PollRes.ready (Except.error 9)) :=
  ⟨(catch_unwind_fut_poll (Fut.pending [1] (Fut.ready [2] 5))).1 [1]
      (Fut.ready [2] 5) rfl,
   (catch_unwind_fut_poll (Fut.ready [3] 4)).2.1 [3] 4 rfl,
   (catch_unwind_fut_poll (Fut.panics [5] 9)).2.2 [5] 9 rfl⟩

/-- C6: when the primary future completes normally with output `x` and the
cleanup future completes normally, `async_scope` emits the primary's
whole trace, then the cleanup's whole trace, and only then returns `x`:
cleanup starts only after the primary has fully settled and the outcome
is surfaced only after cleanup has fully settled. -/
theorem async_scope_ok_ordering {A E P R : Type}
    (dtorfn : A → Fut E P Unit) (args : A) (fut : Fut E P R)
    (es esD : List E) (x : R)
    (hf : Fut.run fut = (es, Outcome.ok x))
    (hd : Fut.run (dtorfn args) = (esD, Outcome.ok ())) :
    async_scope dtorfn args fut = (es ++ esD, Outcome.ok x) := by
  simp [async_scope, catchUnwind_run, hf, hd, captureOutcome]

/-- Witness for C6: a primary future that suspends once and completes with
`5`, with a cleanup future emitting event `10`. -/
theorem async_scope_ok_ordering_witness :
    async_scope (fun (_ : Nat) => (Fut.ready [10] () : Fut Nat Nat Unit)) 0
        (Fut.pending [1] (Fut.ready [2] 5))
      = ([1, 2, 10], Outcome.ok 5) :=
  async_scope_ok_ordering (fun _ => Fut.ready [10] ()) 0
    (Fut.pending [1] (Fut.ready [2] 5)) [1, 2] [10] 5 rfl rfl

/-- C5: when the primary future raises an abrupt unwind with payload `p`
during polling and the cleanup future completes normally, `async_scope`
still runs the cleanup to completion (its whole trace follows the
primary's trace) and afterwards re-raises the same payload `p` — the
unwind is neither swallowed nor replaced. -/
theorem async_scope_panic_reraised {A E P R : Type}
    (dtorfn : A → Fut E P Unit) (args : A) (fut : Fut E P R)
    (es esD : List E) (p : P)
    (hf : Fut.run fut = (es, Outcome.panicked p))
    (hd : Fut.run (dtorfn args) = (esD, Outcome.ok ())) :
    async_scope dtorfn args fut = (es ++ esD, Outcome.panicked p) := by
  simp [async_scope, catchUnwind_run, hf, hd, captureOutcome]

/-- Witness for C5: a primary future that unwinds with payload `9` after
emitting event `1`; the cleanup trace `[10]` still appears and the same
payload `9` is re-raised. -/
theorem async_scope_panic_reraised_witness :
    async_scope (fun (_ : Nat) => (Fut.ready [10] () : Fut Nat Nat Unit)) 0
        (Fut.panics [1] 9 : Fut Nat Nat Nat)
      = ([1, 10], Outcome.panicked 9) :=
  async_scope_panic_reraised (fun _ => Fut.ready [10] ()) 0
    (Fut.panics [1] 9) [1] [10] 9 rfl rfl

/-- C8: when the cleanup future itself raises an abrupt unwind with
payload `q`, that unwind is not captured: it propagates out of
`async_scope` (after the primary's trace and the cleanup's partial trace)
whatever the primary's outcome was — in particular it masks a captured
primary unwind that was pending resumption. -/
theorem async_scope_dtor_panic_masks {A E P R : Type}
    (dtorfn : A → Fut E P Unit) (args : A) (esD : List E) (q : P)
    (hd : Fut.run (dtorfn args) = (esD, Outcome.panicked q))
    (fut : Fut E P R) :
    async_scope dtorfn args fut
      = ((Fut.run fut).1 ++ esD, Outcome.panicked q) := by
  cases hfo : (Fut.run fut).2 with
  | ok r => simp [async_scope, catchUnwind_run, hfo, hd, captureOutcome]
  | panicked p => simp [async_scope, catchUnwind_run, hfo, hd, captureOutcome]

/-- Witness for C8: the primary unwinds with payload `7`, the cleanup
unwinds with payload `9`; the call propagates `9`, masking `7`. -/
theorem async_scope_dtor_panic_masks_witness :
    async_scope (fun (_ : Nat) => (Fut.panics [10] 9 : Fut Nat Nat Unit)) 0
        (Fut.panics [1] 7 : Fut Nat Nat Nat)
      = ([1, 10], Outcome.panicked 9) :=
  async_scope_dtor_panic_masks (fun _ => Fut.panics [10] 9) 0 [10] 9 rfl
    (Fut.panics [1] 7)

/-- Count of value-extraction markers among mapped user effects is zero. -/
theorem countP_map_effect_isVal {T E : Type} (es : List E) :
    ((es.map (DropEv.effect : E → DropEv T E)).countP DropEv.isVal) = 0 := by
  induction es with
  | nil => rfl
  | cons e rest ih => simp [List.countP_cons, ih, DropEv.isVal]

/-- Count of cleanup-extraction markers among mapped user effects is
zero. -/
theorem countP_map_effect_isDtor {T E : Type} (es : List E) :
    ((es.map (DropEv.effect : E → DropEv T E)).countP DropEv.isDtor) = 0 := by
  induction es with
  | nil => rfl
  | cons e rest ih => simp [List.countP_cons, ih, DropEv.isDtor]

/-- C9: during natural destruction, even when the cleanup raises an abrupt
unwind mid-run, the firing path is not re-entered: the destruction trace
extracts the value once, extracts the cleanup once, contains exactly the
user effects of one cleanup invocation, and propagates the unwind payload
unchanged — no second extraction or invocation occurs. -/
theorem scope_drop_single_fire_under_unwind {T E P : Type}
    (g : PScope T E P) (es : List E) (p : P)
    (h : g.dtor g.val = (es, some p)) :
    PScope.dropGlue g
      = (DropEv.extractVal g.val :: DropEv.extractDtor ::
          es.map DropEv.effect, some p)
    ∧ ((PScope.dropGlue g).1.countP DropEv.isVal) = 1
    ∧ ((PScope.dropGlue g).1.countP DropEv.isDtor) = 1 := by
  refine ⟨?_, ?_, ?_⟩ <;>
    simp [PScope.dropGlue, h, List.countP_cons, DropEv.isVal, DropEv.isDtor,
      countP_map_effect_isVal, countP_map_effect_isDtor]

/-- Witness for C9: a concrete guard over `3` whose cleanup emits one event
and then unwinds with payload `42`. -/
theorem scope_drop_single_fire_under_unwind_witness :
    PScope.dropGlue
        (PScope.mk 3 (fun (v : Nat) => (([v] : List Nat), some 42)))
      = (DropEv.extractVal 3 :: DropEv.extractDtor ::
          ([3] : List Nat).map DropEv.effect, some 42)
    ∧ ((PScope.dropGlue
        (PScope.mk 3 (fun (v : Nat) => (([v] : List Nat), some 42)))).1.countP
          DropEv.isVal) = 1
    ∧ ((PScope.dropGlue
        (PScope.mk 3 (fun (v : Nat) => (([v] : List Nat), some 42)))).1.countP
          DropEv.isDtor) = 1 :=
  scope_drop_single_fire_under_unwind
    (PScope.mk 3 (fun (v : Nat) => (([v] : List Nat), some 42))) [3] 42 rfl
